import Mathlib

/-!
Verification development for the AI craft-recognition service.

The embedding translates the python sources of the repository:
the placeholder classifier (models/craft_classifier.py), the model
registry (models/model_loader.py) and the image preprocessing pipeline
(utils/image_preprocessor.py) together with the call order of the
predict handler in app.py.

Randomness is externalised: the shuffled label order is a parameter,
and the sequence of values returned by random.random is a function
u : Nat -> Rat with values in [0,1]; random.uniform a b is then
a + (b - a) * u, exactly as in cpython.  Machine floats are modelled
by exact rationals.  Python object identity is modelled by a natural
number tag handed out by the registry.
-/

namespace Craft

/-- The fixed ordered label set of craft_classifier.py. -/
def classes : List String :=
  ["pottery", "sculpture", "textile", "woodwork",
   "metalwork", "jewelry", "painting", "embroidery"]

/-- Rounding to 4 decimal places, modelling python round(x, 4). -/
def round4 (x : ℚ) : ℚ := ((round (x * 10000) : ℤ) : ℚ) / 10000

/-- random.uniform a b = a + (b - a) * random.random(). -/
def uniformDraw (u a b : ℚ) : ℚ := a + (b - a) * u

/-- One label/confidence entry of the prediction list. -/
structure Pred where
  cls : String
  confidence : ℚ
deriving DecidableEq

instance : Inhabited Pred := ⟨⟨"", 0⟩⟩

/-- The confidence-budget loop of CraftClassifierModel.predict,
iteration index i and remaining budget rem carried explicitly.
The i-th call of random.uniform returns uniformDraw (u i) lo hi. -/
def predictLoop (u : ℕ → ℚ) : List String → ℕ → ℚ → List Pred
  | [], _, _ => []
  | [c], _, rem => [⟨c, round4 rem⟩]
  | c :: c2 :: rest, i, rem =>
      let cap := rem * (if i = 0 then 8/10 else 3/10)
      let conf := uniformDraw (u i) (1/100) cap
      ⟨c, round4 conf⟩ :: predictLoop u (c2 :: rest) (i + 1) (rem - conf)

/-- Descending-by-confidence order used by predictions.sort. -/
def predOrder (p q : Pred) : Prop := q.confidence ≤ p.confidence

instance : DecidableRel predOrder :=
  fun p q => inferInstanceAs (Decidable (q.confidence ≤ p.confidence))

instance : IsTotal Pred predOrder :=
  ⟨fun p q => le_total q.confidence p.confidence⟩

instance : IsTrans Pred predOrder :=
  ⟨fun _ _ _ h h2 => le_trans h2 h⟩

/-- predictions.sort(key confidence, reverse) of the source. -/
def sortPreds (l : List Pred) : List Pred := l.insertionSort predOrder

/-- State of a CraftClassifierModel instance; oid models python object
identity (a tag handed out at construction time). -/
structure CraftClassifierModel where
  oid : ℕ
  model_version : String
  classes : List String
  is_loaded : Bool
deriving DecidableEq

/-- CraftClassifierModel.__init__. -/
def CraftClassifierModel.new (n : ℕ) : CraftClassifierModel :=
  { oid := n
    model_version := "1.0.0-placeholder"
    classes := Craft.classes
    is_loaded := false }

/-- CraftClassifierModel.load: sets is_loaded. -/
def CraftClassifierModel.load (m : CraftClassifierModel) : CraftClassifierModel :=
  { m with is_loaded := true }

/-- Return value of predict. -/
structure PredictResult where
  predictions : List Pred
  top_prediction : Pred
  model_version : String
deriving DecidableEq

/-- CraftClassifierModel.predict, with the shuffled label order and the
random source as explicit parameters. -/
def CraftClassifierModel.predict (m : CraftClassifierModel)
    (shuffled : List String) (u : ℕ → ℚ) : Except String PredictResult :=
  if m.is_loaded then
    let preds := sortPreds (predictLoop u shuffled 0 1)
    .ok ⟨preds, preds.headI, m.model_version⟩
  else
    .error "Model not loaded. Call load() first."

/-- Payload of CraftClassifierModel.get_info. -/
structure ModelInfo where
  version : String
  classes : List String
  num_classes : ℕ
  is_loaded : Bool
  type : String
deriving DecidableEq

/-- CraftClassifierModel.get_info. -/
def CraftClassifierModel.get_info (m : CraftClassifierModel) : ModelInfo :=
  { version := m.model_version
    classes := m.classes
    num_classes := m.classes.length
    is_loaded := m.is_loaded
    type := "placeholder" }

/-- The confidence-budget procedure transcribed from the words of the
spec, section 4.3: iterate the shuffled order with a remaining budget
starting at 1.0; every label except the last draws uniformly from
[0.01, cap] with cap = remaining times 0.8 for the first label and
remaining times 0.3 for every subsequent non-last label, and the draw
is subtracted from the budget; the last label receives whatever
remains; each confidence is rounded to 4 decimal places.  Kept
structurally distinct from predictLoop (a first-label flag instead of
an index test) so the refinement proof compares two genuine texts. -/
def specBudgetLoop (u : ℕ → ℚ) : Bool → ℕ → ℚ → List String → List Pred
  | _, _, rem, [c] => [⟨c, round4 rem⟩]
  | first, i, rem, c :: c2 :: rest =>
      let cap := if first then rem * (4/5) else rem * (3/10)
      let conf := uniformDraw (u i) (1/100) cap
      ⟨c, round4 conf⟩ :: specBudgetLoop u false (i + 1) (rem - conf) (c2 :: rest)
  | _, _, _, [] => []

/-- The whole spec procedure: budget 1.0, first-label flag set. -/
def specBudgetProcedure (u : ℕ → ℚ) (labels : List String) : List Pred :=
  specBudgetLoop u true 0 1 labels

/-- State of the ModelLoader registry: the single slot plus the next
free identity tag. -/
structure LoaderState where
  slot : Option CraftClassifierModel
  fresh : ℕ
deriving DecidableEq

/-- ModelLoader.load_model: construct and load only when the slot is
empty, else return the existing instance. -/
def ModelLoader.load_model (s : LoaderState) : CraftClassifierModel × LoaderState :=
  match s.slot with
  | some m => (m, s)
  | none =>
      let m := (CraftClassifierModel.new s.fresh).load
      (m, ⟨some m, s.fresh + 1⟩)

/-- ModelLoader.get_model: fails when the slot is empty. -/
def ModelLoader.get_model (s : LoaderState) : Except String CraftClassifierModel :=
  match s.slot with
  | some m => .ok m
  | none => .error "Model not loaded. Call load_model() first."

/-- ModelLoader.reload_model: clear the slot, then load_model. -/
def ModelLoader.reload_model (s : LoaderState) : CraftClassifierModel × LoaderState :=
  ModelLoader.load_model ⟨none, s.fresh⟩

/-- An in-memory raster, as PIL exposes it to this code base. -/
structure PImage where
  width : ℕ
  height : ℕ
  mode : String
  format : Option String
deriving DecidableEq

/-- PIL Image.resize: new raster of the given size, same mode, no
format attribute on the derived image. -/
def PImage.resize (img : PImage) (sz : ℕ × ℕ) : PImage :=
  ⟨sz.1, sz.2, img.mode, none⟩

/-- PIL Image.convert: same raster size, new mode. -/
def PImage.convert (img : PImage) (m : String) : PImage :=
  ⟨img.width, img.height, m, none⟩

/-- An uploaded file object: the byte buffer, the current read
position, whether seek is supported, and a log of the contents
returned by each read call (instrumentation for the buffering
claims). -/
structure Stream where
  data : List ℕ
  pos : ℕ
  seekable : Bool
  log : List (List ℕ)
deriving DecidableEq

/-- file.read(): everything from the current position, which moves to
the end; the content observed is logged. -/
def Stream.read (s : Stream) : List ℕ × Stream :=
  (s.data.drop s.pos,
   { s with pos := s.data.length, log := s.log ++ [s.data.drop s.pos] })

/-- file.seek(0): fails on a single-pass (non-seekable) stream. -/
def Stream.seek0 (s : Stream) : Option Stream :=
  if s.seekable then some { s with pos := 0 } else none

/-- Image.open + verify, abstracted: a decoder turns a byte buffer
into a raster or fails. -/
def Decoder : Type := List ℕ → Option PImage

/-- Configuration of the preprocessor. -/
structure ImagePreprocessor where
  target_size : ℕ × ℕ
  max_dimension : ℕ
deriving DecidableEq

namespace ImagePreprocessor

/-- ImagePreprocessor._optimize_image_size: downscale only when the
longer side exceeds max_dimension, scaling both sides by
max_dimension / max_dim with int truncation. -/
def optimize_image_size (pp : ImagePreprocessor) (image : PImage) : PImage :=
  let max_dim := max image.width image.height
  if pp.max_dimension < max_dim then
    let scale : ℚ := (pp.max_dimension : ℚ) / (max_dim : ℚ)
    image.resize
      ((⌊(image.width : ℚ) * scale⌋).toNat, (⌊(image.height : ℚ) * scale⌋).toNat)
  else
    image

/-- ImagePreprocessor.validate_image: read the whole stream, decode
from the in-memory copy, then seek back to 0; on any failure attempt
the seek again and raise ValueError. -/
def validate_image (d : Decoder) (s : Stream) : Except String Bool × Stream :=
  let r := s.read
  match d r.1 with
  | some _ =>
      match r.2.seek0 with
      | some s2 => (.ok true, s2)
      | none => (.error "Invalid image file: stream does not support seeking", r.2)
  | none =>
      match r.2.seek0 with
      | some s2 => (.error "Invalid image file: cannot identify image file", s2)
      | none => (.error "Invalid image file: cannot identify image file", r.2)

/-- ImagePreprocessor.preprocess: read, decode, optimize size, force
RGB, resize to target_size.  No seek afterwards. -/
def preprocess (pp : ImagePreprocessor) (d : Decoder) (s : Stream) :
    Except String PImage × Stream :=
  let r := s.read
  match d r.1 with
  | none => (.error "cannot identify image file", r.2)
  | some image =>
      let image1 := pp.optimize_image_size image
      let image2 := if image1.mode ≠ "RGB" then image1.convert "RGB" else image1
      (.ok (image2.resize pp.target_size), r.2)

end ImagePreprocessor

/-- Metadata payload of get_image_info. -/
structure ImageInfo where
  format : Option String
  mode : String
  size : ℕ × ℕ
  width : ℕ
  height : ℕ
deriving DecidableEq

/-- ImagePreprocessor.get_image_info: read, decode, report metadata,
seek back to 0.  A decode or seek failure propagates. -/
def ImagePreprocessor.get_image_info (d : Decoder) (s : Stream) :
    Except String ImageInfo × Stream :=
  let r := s.read
  match d r.1 with
  | none => (.error "cannot identify image file", r.2)
  | some image =>
      let info : ImageInfo :=
        ⟨image.format, image.mode, (image.width, image.height),
         image.width, image.height⟩
      match r.2.seek0 with
      | some s2 => (.ok info, s2)
      | none => (.error "stream does not support seeking", r.2)

/-- The per-request core of the predict handler in app.py, after the
extension check: validate_image, then get_image_info, then preprocess,
in that order on the same uploaded file object.  The response exposes
the metadata of the second step and the raster of the third. -/
def predictPipeline (d : Decoder) (pp : ImagePreprocessor) (s : Stream) :
    Except String (ImageInfo × PImage) × Stream :=
  match ImagePreprocessor.validate_image d s with
  | (.error e, s1) => (.error e, s1)
  | (.ok _, s1) =>
      match ImagePreprocessor.get_image_info d s1 with
      | (.error e, s2) => (.error e, s2)
      | (.ok info, s2) =>
          match ImagePreprocessor.preprocess pp d s2 with
          | (.error e, s3) => (.error e, s3)
          | (.ok image, s3) => (.ok (info, image), s3)

/-! Helper lemmas about rounding, uniform draws and the budget loop. -/

lemma round4_nonneg {x : ℚ} (h : 0 ≤ x) : 0 ≤ round4 x := by
  unfold round4
  have hz : (0:ℤ) ≤ round (x * 10000) := by
    rw [round_eq]
    exact Int.floor_nonneg.2 (by positivity)
  have : (0:ℚ) ≤ ((round (x * 10000) : ℤ) : ℚ) := by exact_mod_cast hz
  positivity

lemma round4_le_one {x : ℚ} (h : x ≤ 1) : round4 x ≤ 1 := by
  unfold round4
  have hz : round (x * 10000) ≤ 10000 := by
    rw [round_eq]
    have h2 : x * 10000 + 1/2 ≤ 10000 + 1/2 := by linarith
    calc ⌊x * 10000 + 1/2⌋ ≤ ⌊(10000:ℚ) + 1/2⌋ := Int.floor_le_floor h2
      _ = 10000 := by norm_num [Int.floor_eq_iff]
  have : ((round (x * 10000) : ℤ) : ℚ) ≤ 10000 := by exact_mod_cast hz
  linarith

lemma uniformDraw_bounds {a b u : ℚ} (hab : a ≤ b) (h0 : 0 ≤ u) (h1 : u ≤ 1) :
    a ≤ uniformDraw u a b ∧ uniformDraw u a b ≤ b := by
  unfold uniformDraw
  constructor
  · nlinarith
  · nlinarith

/-- Lower bound on the remaining budget that the loop needs when the
given number of labels is still to be processed. -/
def lbound : ℕ → ℚ
  | 0 => 0
  | 1 => 0
  | n + 2 => (1/30) * ((10:ℚ)/7)^n

lemma lbound_nonneg : ∀ n, 0 ≤ lbound n
  | 0 => le_refl 0
  | 1 => le_refl 0
  | n + 2 => by unfold lbound; positivity

lemma lbound_ge {n : ℕ} (h : 2 ≤ n) : 1/30 ≤ lbound n := by
  obtain ⟨m, rfl⟩ : ∃ m, n = m + 2 := ⟨n - 2, by omega⟩
  unfold lbound
  have hp : (1:ℚ) ≤ ((10:ℚ)/7)^m := one_le_pow₀ (by norm_num)
  nlinarith

lemma lbound_add_two (n : ℕ) : lbound (n + 2) = (1/30) * ((10:ℚ)/7)^n := rfl

lemma lbound_succ_le (n : ℕ) : lbound (n + 1) ≤ (7/10) * lbound (n + 2) := by
  cases n with
  | zero =>
    rw [lbound_add_two]
    norm_num [lbound]
  | succ m =>
    rw [lbound_add_two, lbound_add_two, pow_succ]
    have hp : (0:ℚ) ≤ ((10:ℚ)/7)^m := by positivity
    nlinarith

lemma predictLoop_mem_bounds (u : ℕ → ℚ) (hu : ∀ j, 0 ≤ u j ∧ u j ≤ 1) :
    ∀ (l : List String) (i : ℕ) (rem : ℚ), i ≠ 0 →
      lbound l.length ≤ rem → rem ≤ 1 →
      ∀ p ∈ predictLoop u l i rem, 0 ≤ p.confidence ∧ p.confidence ≤ 1 := by
  intro l
  induction l with
  | nil => intro i rem _ _ _ p hp; simp [predictLoop] at hp
  | cons c rest ih =>
    intro i rem hi hlb hub p hp
    cases rest with
    | nil =>
      simp only [predictLoop, List.mem_singleton] at hp
      subst hp
      have h0 : (0:ℚ) ≤ rem := le_trans (lbound_nonneg 1) (by simpa using hlb)
      exact ⟨round4_nonneg h0, round4_le_one hub⟩
    | cons c2 rest2 =>
      have h30 : (1:ℚ)/30 ≤ rem := by
        refine le_trans (lbound_ge ?_) hlb
        simp
      have hcap : (1:ℚ)/100 ≤ rem * (3/10) := by linarith
      have hub0 := (hu i).1
      have hub1 := (hu i).2
      have hcb := uniformDraw_bounds hcap hub0 hub1
      simp only [predictLoop, if_neg hi, List.mem_cons] at hp
      rcases hp with rfl | hp
      · refine ⟨round4_nonneg (by linarith [hcb.1]), round4_le_one ?_⟩
        have : rem * (3/10) ≤ 3/10 := by linarith
        linarith [hcb.2]
      · refine ih (i + 1) (rem - uniformDraw (u i) (1/100) (rem * (3/10)))
          (Nat.succ_ne_zero i) ?_ ?_ p hp
        · have hlb2 : lbound (rest2.length + 2) ≤ rem := by
            have hlen2 : (c :: c2 :: rest2).length = rest2.length + 2 := by
              simp [List.length_cons]
            rwa [hlen2] at hlb
          have hstep := lbound_succ_le rest2.length
          have hmul : (7:ℚ)/10 * lbound (rest2.length + 2) ≤ 7/10 * rem := by
            nlinarith
          have hlen1 : (c2 :: rest2).length = rest2.length + 1 := by
            simp [List.length_cons]
          rw [hlen1]
          linarith [hcb.2]
        · linarith [hcb.1]

lemma predictLoop_len8_bounds (u : ℕ → ℚ) (hu : ∀ j, 0 ≤ u j ∧ u j ≤ 1)
    (shuffled : List String) (hlen : shuffled.length = 8) :
    ∀ p ∈ predictLoop u shuffled 0 1, 0 ≤ p.confidence ∧ p.confidence ≤ 1 := by
  match shuffled, hlen with
  | a :: b :: t, hlen =>
    intro p hp
    have hcap : (1:ℚ)/100 ≤ 1 * (8/10) := by norm_num
    have hcb := uniformDraw_bounds hcap (hu 0).1 (hu 0).2
    have hunfold : predictLoop u (a :: b :: t) 0 1 =
        ⟨a, round4 (uniformDraw (u 0) (1/100) (1 * (8/10)))⟩ ::
          predictLoop u (b :: t) 1 (1 - uniformDraw (u 0) (1/100) (1 * (8/10))) := rfl
    rw [hunfold] at hp
    simp only [List.mem_cons] at hp
    rcases hp with rfl | hp
    · exact ⟨round4_nonneg (by linarith [hcb.1]), round4_le_one (by linarith [hcb.2])⟩
    · refine predictLoop_mem_bounds u hu (b :: t) 1
        (1 - uniformDraw (u 0) (1/100) (1 * (8/10))) one_ne_zero ?_ ?_ p hp
      · have hlt : (b :: t).length = 7 := by simpa using hlen
        rw [hlt]
        have : lbound 7 = (1/30) * ((10:ℚ)/7)^5 := rfl
        rw [this]
        have h15 : (1:ℚ)/30 * ((10:ℚ)/7)^5 ≤ 1/5 := by norm_num
        linarith [hcb.2]
      · linarith [hcb.1]

lemma predictLoop_eq_spec_aux (u : ℕ → ℚ) :
    ∀ (l : List String) (i : ℕ) (rem : ℚ), i ≠ 0 →
      predictLoop u l i rem = specBudgetLoop u false i rem l := by
  intro l
  induction l with
  | nil => intro i rem _; rfl
  | cons c rest ih =>
    intro i rem hi
    cases rest with
    | nil => rfl
    | cons c2 rest2 =>
      have hcode : predictLoop u (c :: c2 :: rest2) i rem =
          ⟨c, round4 (uniformDraw (u i) (1/100) (rem * (if i = 0 then 8/10 else 3/10)))⟩ ::
            predictLoop u (c2 :: rest2) (i + 1)
              (rem - uniformDraw (u i) (1/100) (rem * (if i = 0 then 8/10 else 3/10))) := rfl
      have hspec : specBudgetLoop u false i rem (c :: c2 :: rest2) =
          ⟨c, round4 (uniformDraw (u i) (1/100) (rem * (3/10)))⟩ ::
            specBudgetLoop u false (i + 1)
              (rem - uniformDraw (u i) (1/100) (rem * (3/10))) (c2 :: rest2) := rfl
      rw [hcode, if_neg hi, hspec, ih (i + 1) _ (Nat.succ_ne_zero i)]

lemma predictLoop_eq_specBudgetProcedure (u : ℕ → ℚ) (l : List String) :
    predictLoop u l 0 1 = specBudgetProcedure u l := by
  cases l with
  | nil => rfl
  | cons c rest =>
    cases rest with
    | nil => rfl
    | cons c2 rest2 =>
      have hcode : predictLoop u (c :: c2 :: rest2) 0 1 =
          ⟨c, round4 (uniformDraw (u 0) (1/100) (1 * (8/10)))⟩ ::
            predictLoop u (c2 :: rest2) 1 (1 - uniformDraw (u 0) (1/100) (1 * (8/10))) := rfl
      have hspec : specBudgetProcedure u (c :: c2 :: rest2) =
          ⟨c, round4 (uniformDraw (u 0) (1/100) (1 * (4/5)))⟩ ::
            specBudgetLoop u false 1
              (1 - uniformDraw (u 0) (1/100) (1 * (4/5))) (c2 :: rest2) := rfl
      rw [hcode, hspec, (by norm_num : (1:ℚ) * (8/10) = 1 * (4/5)),
        predictLoop_eq_spec_aux u (c2 :: rest2) 1 _ one_ne_zero]

lemma predictLoop_map_cls (u : ℕ → ℚ) :
    ∀ (l : List String) (i : ℕ) (rem : ℚ),
      (predictLoop u l i rem).map Pred.cls = l := by
  intro l
  induction l with
  | nil => intro i rem; rfl
  | cons c rest ih =>
    intro i rem
    cases rest with
    | nil => rfl
    | cons c2 rest2 => simp [predictLoop, ih]

lemma predict_ok (m : CraftClassifierModel) (shuffled : List String) (u : ℕ → ℚ)
    (h : m.is_loaded = true) :
    m.predict shuffled u =
      .ok ⟨sortPreds (predictLoop u shuffled 0 1),
           (sortPreds (predictLoop u shuffled 0 1)).headI, m.model_version⟩ := by
  unfold CraftClassifierModel.predict
  rw [h]
  rfl

lemma classes_nodup : classes.Nodup := by decide

lemma classes_length : classes.length = 8 := rfl

/-- The loaded model and canonical random source used by witnesses. -/
def loadedModel : CraftClassifierModel := (CraftClassifierModel.new 0).load

def demoU : ℕ → ℚ := fun _ => 1/2

/-! Claims about the mock classifier. -/

/-- Claim C1: for every call to predict on a loaded classifier, the
confidences are produced by exactly the budget procedure of the spec:
iterate the shuffled 8-label order with a remaining budget starting at
1.0, each non-last label drawing uniformly from [0.01, cap] with cap =
remaining times 0.8 for the first label and remaining times 0.3 for
every later non-last label, subtracting the draw; the last label in
shuffled order receives the remaining budget with no clamping; each
confidence is rounded to 4 decimal places. -/
theorem predict_confidences_follow_spec_budget (m : CraftClassifierModel)
    (shuffled : List String) (u : ℕ → ℚ) (h : m.is_loaded = true) :
    ∃ res, m.predict shuffled u = .ok res ∧
      res.predictions = sortPreds (specBudgetProcedure u shuffled) := by
  refine ⟨_, predict_ok m shuffled u h, ?_⟩
  rw [predictLoop_eq_specBudgetProcedure]

theorem predict_confidences_follow_spec_budget_witness :
    loadedModel.is_loaded = true ∧
      ∃ res, loadedModel.predict classes demoU = .ok res ∧
        res.predictions = sortPreds (specBudgetProcedure demoU classes) :=
  ⟨rfl, predict_confidences_follow_spec_budget loadedModel classes demoU rfl⟩

/-- Claim C2: for every call to predict on a loaded classifier and
every outcome of the random draws, the prediction list has exactly 8
entries, contains each of the 8 fixed labels exactly once with no
duplicates, is sorted non-increasing by confidence, and the reported
top prediction is its first element. -/
theorem predict_returns_sorted_label_permutation (m : CraftClassifierModel)
    (shuffled : List String) (u : ℕ → ℚ) (h : m.is_loaded = true)
    (hperm : shuffled.Perm classes) :
    ∃ res, m.predict shuffled u = .ok res ∧
      res.predictions.length = 8 ∧
      (res.predictions.map Pred.cls).Perm classes ∧
      (res.predictions.map Pred.cls).Nodup ∧
      res.predictions.Sorted predOrder ∧
      res.top_prediction = res.predictions.headI := by
  refine ⟨_, predict_ok m shuffled u h, ?_, ?_, ?_, ?_, rfl⟩
  all_goals
    have hsp := (List.perm_insertionSort predOrder (predictLoop u shuffled 0 1)).map Pred.cls
    rw [predictLoop_map_cls] at hsp
    have hper2 := hsp.trans hperm
  · have := hper2.length_eq
    rw [classes_length, List.length_map] at this
    exact this
  · exact hper2
  · exact hper2.nodup_iff.2 classes_nodup
  · exact List.sorted_insertionSort predOrder _

theorem predict_returns_sorted_label_permutation_witness :
    (loadedModel.is_loaded = true ∧ classes.Perm classes) ∧
      ∃ res, loadedModel.predict classes demoU = .ok res ∧
        res.predictions.length = 8 ∧
        (res.predictions.map Pred.cls).Perm classes ∧
        (res.predictions.map Pred.cls).Nodup ∧
        res.predictions.Sorted predOrder ∧
        res.top_prediction = res.predictions.headI :=
  ⟨⟨rfl, List.Perm.refl classes⟩,
    predict_returns_sorted_label_permutation loadedModel classes demoU rfl
      (List.Perm.refl classes)⟩

/-- Claim C5: for every call to predict on a loaded classifier and
every outcome of the random draws, every returned confidence lies in
the interval [0, 1].  With exact arithmetic the remaining budget in
fact never goes negative for the fixed 8-label set. -/
theorem predict_confidences_in_unit_interval (m : CraftClassifierModel)
    (shuffled : List String) (u : ℕ → ℚ) (h : m.is_loaded = true)
    (hperm : shuffled.Perm classes) (hu : ∀ j, 0 ≤ u j ∧ u j ≤ 1) :
    ∃ res, m.predict shuffled u = .ok res ∧
      ∀ p ∈ res.predictions, 0 ≤ p.confidence ∧ p.confidence ≤ 1 := by
  refine ⟨_, predict_ok m shuffled u h, ?_⟩
  intro p hp
  have hlen : shuffled.length = 8 := by rw [hperm.length_eq, classes_length]
  exact predictLoop_len8_bounds u hu shuffled hlen p
    ((List.mem_insertionSort predOrder).1 hp)

theorem predict_confidences_in_unit_interval_witness :
    (loadedModel.is_loaded = true ∧ classes.Perm classes ∧
        (∀ j, 0 ≤ demoU j ∧ demoU j ≤ 1)) ∧
      ∃ res, loadedModel.predict classes demoU = .ok res ∧
        ∀ p ∈ res.predictions, 0 ≤ p.confidence ∧ p.confidence ≤ 1 :=
  ⟨⟨rfl, List.Perm.refl classes, fun j => by norm_num [demoU]⟩,
    predict_confidences_in_unit_interval loadedModel classes demoU rfl
      (List.Perm.refl classes) (fun j => by norm_num [demoU])⟩

/-- Claim C6: predict before load fails with the model-not-loaded
error and returns no prediction; after load has been called the error
is never raised and a prediction result is returned.  Nothing in the
code ever resets is_loaded to false. -/
theorem predict_fails_before_load_succeeds_after (m : CraftClassifierModel)
    (shuffled : List String) (u : ℕ → ℚ) (h : m.is_loaded = false) :
    m.predict shuffled u = .error "Model not loaded. Call load() first." ∧
      ∃ res, (m.load).predict shuffled u = .ok res := by
  constructor
  · unfold CraftClassifierModel.predict
    rw [h]
    rfl
  · exact ⟨_, predict_ok m.load shuffled u rfl⟩

theorem predict_fails_before_load_succeeds_after_witness :
    (CraftClassifierModel.new 0).is_loaded = false ∧
      ((CraftClassifierModel.new 0).predict classes demoU =
          .error "Model not loaded. Call load() first." ∧
        ∃ res, ((CraftClassifierModel.new 0).load).predict classes demoU = .ok res) :=
  ⟨rfl, predict_fails_before_load_succeeds_after (CraftClassifierModel.new 0)
    classes demoU rfl⟩

/-! The model registry. -/

/-- Invariant of every reachable registry state: a stored model was
constructed by the registry (so it carries a tag below the next free
one, is loaded, and has the canonical construction-time fields). -/
def LoaderInv (s : LoaderState) : Prop :=
  ∀ m, s.slot = some m → m.oid < s.fresh ∧ m = (CraftClassifierModel.new m.oid).load

/-- Claim C9: after load_model; m1 := get_model; reload_model;
m2 := get_model, the instance m2 is freshly constructed and distinct
from m1 by identity, yet get_info returns identical content. -/
theorem reload_model_fresh_instance_same_info (s : LoaderState) (hinv : LoaderInv s) :
    ModelLoader.get_model (ModelLoader.load_model s).2 =
        .ok (ModelLoader.load_model s).1 ∧
      ModelLoader.get_model (ModelLoader.reload_model (ModelLoader.load_model s).2).2 =
        .ok (ModelLoader.reload_model (ModelLoader.load_model s).2).1 ∧
      (ModelLoader.reload_model (ModelLoader.load_model s).2).1.oid ≠
        (ModelLoader.load_model s).1.oid ∧
      (ModelLoader.reload_model (ModelLoader.load_model s).2).1.get_info =
        (ModelLoader.load_model s).1.get_info := by
  rcases s with ⟨slot, fresh⟩
  cases slot with
  | none => exact ⟨rfl, rfl, Nat.succ_ne_self fresh, rfl⟩
  | some m =>
    obtain ⟨hlt, hm⟩ := hinv m rfl
    refine ⟨rfl, rfl, Nat.ne_of_gt hlt, ?_⟩
    show (CraftClassifierModel.new fresh).load.get_info = m.get_info
    rw [hm]
    rfl

theorem reload_model_fresh_instance_same_info_witness :
    LoaderInv ⟨none, 0⟩ ∧
      (ModelLoader.get_model (ModelLoader.load_model ⟨none, 0⟩).2 =
          .ok (ModelLoader.load_model ⟨none, 0⟩).1 ∧
        ModelLoader.get_model
            (ModelLoader.reload_model (ModelLoader.load_model ⟨none, 0⟩).2).2 =
          .ok (ModelLoader.reload_model (ModelLoader.load_model ⟨none, 0⟩).2).1 ∧
        (ModelLoader.reload_model (ModelLoader.load_model ⟨none, 0⟩).2).1.oid ≠
          (ModelLoader.load_model ⟨none, 0⟩).1.oid ∧
        (ModelLoader.reload_model (ModelLoader.load_model ⟨none, 0⟩).2).1.get_info =
          (ModelLoader.load_model ⟨none, 0⟩).1.get_info) :=
  ⟨(fun _ hm => nomatch hm),
    reload_model_fresh_instance_same_info ⟨none, 0⟩ (fun _ hm => nomatch hm)⟩

/-! Image preprocessing claims. -/

/-- Concrete data used by the witnesses: a decodable byte buffer, a
small raster, a large raster and the preprocessor configured as in
app.py. -/
def demoBytes : List ℕ := [137, 80, 78, 71]

def demoImage : PImage := ⟨100, 50, "L", some "PNG"⟩

def bigImage : PImage := ⟨2000, 500, "RGB", some "JPEG"⟩

def demoDecode : Decoder := fun b => if b = demoBytes then some demoImage else none

def demoPP : ImagePreprocessor := ⟨(224, 224), 1024⟩

def demoStream : Stream := ⟨demoBytes, 0, true, []⟩

def demoStreamSinglePass : Stream := ⟨demoBytes, 0, false, []⟩

lemma abs_toNat_floor_sub_le (q : ℚ) (hq : 0 ≤ q) :
    |(((⌊q⌋).toNat : ℕ) : ℚ) - q| ≤ 1 := by
  have h0 : (0:ℤ) ≤ ⌊q⌋ := Int.floor_nonneg.2 hq
  have hcast : (((⌊q⌋).toNat : ℕ) : ℚ) = ((⌊q⌋ : ℤ) : ℚ) := by
    have := Int.toNat_of_nonneg h0
    exact_mod_cast congrArg (fun z : ℤ => (z : ℚ)) this
  rw [hcast, abs_le]
  constructor
  · have := Int.sub_one_lt_floor q
    linarith
  · have := Int.floor_le q
    linarith

/-- Claim C3: for every decodable input, the image returned by
preprocess has dimensions exactly the configured target size,
whatever the input dimensions and aspect ratio. -/
theorem preprocess_output_is_target_size (pp : ImagePreprocessor) (d : Decoder)
    (s : Stream) (img : PImage) (h : (pp.preprocess d s).1 = .ok img) :
    img.width = pp.target_size.1 ∧ img.height = pp.target_size.2 := by
  simp only [ImagePreprocessor.preprocess] at h
  cases hd : d (s.read).1 with
  | none =>
    rw [hd] at h
    exact absurd h (by simp)
  | some image =>
    rw [hd] at h
    simp only [Except.ok.injEq] at h
    subst h
    exact ⟨rfl, rfl⟩

theorem preprocess_output_is_target_size_witness :
    (demoPP.preprocess demoDecode demoStream).1 =
        .ok (⟨224, 224, "RGB", none⟩ : PImage) ∧
      ((⟨224, 224, "RGB", none⟩ : PImage).width = demoPP.target_size.1 ∧
        (⟨224, 224, "RGB", none⟩ : PImage).height = demoPP.target_size.2) :=
  ⟨rfl, preprocess_output_is_target_size demoPP demoDecode demoStream _ rfl⟩

/-- Claim C4: when the longer side exceeds max_dimension, the
downscale multiplies each side by max_dimension / max(width, height)
and truncates to an integer, which keeps each side within one pixel of
exact proportional scaling; otherwise the image is unchanged. -/
theorem optimize_image_size_within_one_pixel (pp : ImagePreprocessor) (image : PImage) :
    (pp.max_dimension < max image.width image.height →
      (pp.optimize_image_size image).width =
          (⌊(image.width : ℚ) *
              ((pp.max_dimension : ℚ) / ((max image.width image.height : ℕ) : ℚ))⌋).toNat ∧
        (pp.optimize_image_size image).height =
          (⌊(image.height : ℚ) *
              ((pp.max_dimension : ℚ) / ((max image.width image.height : ℕ) : ℚ))⌋).toNat ∧
        |(((pp.optimize_image_size image).width : ℕ) : ℚ) -
            (image.width : ℚ) *
              ((pp.max_dimension : ℚ) / ((max image.width image.height : ℕ) : ℚ))| ≤ 1 ∧
        |(((pp.optimize_image_size image).height : ℕ) : ℚ) -
            (image.height : ℚ) *
              ((pp.max_dimension : ℚ) / ((max image.width image.height : ℕ) : ℚ))| ≤ 1) ∧
    (max image.width image.height ≤ pp.max_dimension →
      pp.optimize_image_size image = image) := by
  constructor
  · intro hlt
    have hq1 : (0:ℚ) ≤ (image.width : ℚ) *
        ((pp.max_dimension : ℚ) / ((max image.width image.height : ℕ) : ℚ)) := by
      positivity
    have hq2 : (0:ℚ) ≤ (image.height : ℚ) *
        ((pp.max_dimension : ℚ) / ((max image.width image.height : ℕ) : ℚ)) := by
      positivity
    unfold ImagePreprocessor.optimize_image_size
    rw [if_pos hlt]
    exact ⟨rfl, rfl, abs_toNat_floor_sub_le _ hq1, abs_toNat_floor_sub_le _ hq2⟩
  · intro hle
    unfold ImagePreprocessor.optimize_image_size
    rw [if_neg (not_lt.2 hle)]

theorem optimize_image_size_within_one_pixel_witness :
    demoPP.max_dimension < max bigImage.width bigImage.height ∧
      max demoImage.width demoImage.height ≤ demoPP.max_dimension ∧
      ((demoPP.optimize_image_size bigImage).width =
          (⌊(bigImage.width : ℚ) *
              ((demoPP.max_dimension : ℚ) /
                ((max bigImage.width bigImage.height : ℕ) : ℚ))⌋).toNat ∧
        (demoPP.optimize_image_size bigImage).height =
          (⌊(bigImage.height : ℚ) *
              ((demoPP.max_dimension : ℚ) /
                ((max bigImage.width bigImage.height : ℕ) : ℚ))⌋).toNat ∧
        |(((demoPP.optimize_image_size bigImage).width : ℕ) : ℚ) -
            (bigImage.width : ℚ) *
              ((demoPP.max_dimension : ℚ) /
                ((max bigImage.width bigImage.height : ℕ) : ℚ))| ≤ 1 ∧
        |(((demoPP.optimize_image_size bigImage).height : ℕ) : ℚ) -
            (bigImage.height : ℚ) *
              ((demoPP.max_dimension : ℚ) /
                ((max bigImage.width bigImage.height : ℕ) : ℚ))| ≤ 1) ∧
      demoPP.optimize_image_size demoImage = demoImage :=
  ⟨by decide, by decide,
    (optimize_image_size_within_one_pixel demoPP bigImage).1 (by decide),
    (optimize_image_size_within_one_pixel demoPP demoImage).2 (by decide)⟩

/-! Stream buffering claims. -/

/-- Claim C7, counterexample: the pipeline does not buffer the raw
bytes once; it reads the underlying source three times, once in each
step, and on a single-pass (non-seekable) stream it fails with an
invalid-image error on perfectly valid bytes instead of handing every
step the complete content. -/
theorem pipeline_not_buffered_once_counterexample :
    (predictPipeline demoDecode demoPP demoStream).2.log ≠ [demoBytes] ∧
      (predictPipeline demoDecode demoPP demoStreamSinglePass).1 =
        .error "Invalid image file: stream does not support seeking" := by
  constructor
  · decide
  · rfl

/-- Claim C7, amended: each of the three steps separately reads and
buffers the complete content, restoring the position in between, so on
a seekable stream positioned at the start every step observes the
complete uploaded bytes (the source is read three times, not once);
on a single-pass stream the pipeline instead fails at validation. -/
theorem pipeline_each_step_reads_full_content (d : Decoder) (pp : ImagePreprocessor)
    (s : Stream) (hseek : s.seekable = true) (hpos : s.pos = 0) (hlog : s.log = [])
    (img : PImage) (hd : d s.data = some img) :
    (predictPipeline d pp s).2.log = [s.data, s.data, s.data] ∧
      ∃ out, (predictPipeline d pp s).1 = .ok out := by
  obtain ⟨data, pos, seekable, log⟩ := s
  simp only at hseek hpos hlog hd
  subst hseek hpos hlog
  simp only [predictPipeline, ImagePreprocessor.validate_image,
    ImagePreprocessor.get_image_info, ImagePreprocessor.preprocess,
    Stream.read, Stream.seek0, List.drop_zero, hd, if_true, List.nil_append,
    List.append_assoc, List.cons_append]
  exact ⟨trivial, _, rfl⟩

theorem pipeline_each_step_reads_full_content_witness :
    (demoStream.seekable = true ∧ demoStream.pos = 0 ∧ demoStream.log = [] ∧
        demoDecode demoStream.data = some demoImage) ∧
      ((predictPipeline demoDecode demoPP demoStream).2.log =
          [demoStream.data, demoStream.data, demoStream.data] ∧
        ∃ out, (predictPipeline demoDecode demoPP demoStream).1 = .ok out) :=
  ⟨⟨rfl, rfl, rfl, by decide⟩,
    pipeline_each_step_reads_full_content demoDecode demoPP demoStream rfl rfl rfl
      demoImage (by decide)⟩

/-- Claim C8: get_image_info is a pure function of the byte buffer it
reads (any stream holding the same buffer at position 0 yields the
same metadata, preprocessing involved nowhere), and the metadata the
pipeline reports is that of the originally decoded image, before any
downscale or resize. -/
theorem get_image_info_reports_original_metadata (d : Decoder) (pp : ImagePreprocessor)
    (s : Stream) (img : PImage) (hseek : s.seekable = true) (hpos : s.pos = 0)
    (hd : d s.data = some img) :
    (ImagePreprocessor.get_image_info d s).1 =
        .ok ⟨img.format, img.mode, (img.width, img.height), img.width, img.height⟩ ∧
      (∀ t : Stream, t.data = s.data → t.pos = 0 → t.seekable = true →
        (ImagePreprocessor.get_image_info d t).1 =
          (ImagePreprocessor.get_image_info d s).1) ∧
      ∀ out, (predictPipeline d pp s).1 = .ok out →
        out.1.width = img.width ∧ out.1.height = img.height ∧
          out.1.format = img.format := by
  obtain ⟨data, pos, seekable, log⟩ := s
  simp only at hseek hpos hd
  subst hseek hpos
  refine ⟨?_, ?_, ?_⟩
  · simp only [ImagePreprocessor.get_image_info, Stream.read, Stream.seek0,
      List.drop_zero, hd, if_true]
  · intro t ht hp hs
    obtain ⟨tdata, tpos, tseek, tlog⟩ := t
    simp only at ht hp hs
    subst ht hp hs
    simp only [ImagePreprocessor.get_image_info, Stream.read, Stream.seek0,
      List.drop_zero, hd, if_true]
  · intro out hout
    simp only [predictPipeline, ImagePreprocessor.validate_image,
      ImagePreprocessor.get_image_info, ImagePreprocessor.preprocess,
      Stream.read, Stream.seek0, List.drop_zero, hd, if_true,
      Except.ok.injEq] at hout
    subst hout
    exact ⟨rfl, rfl, rfl⟩

theorem get_image_info_reports_original_metadata_witness :
    (demoStream.seekable = true ∧ demoStream.pos = 0 ∧
        demoDecode demoStream.data = some demoImage) ∧
      ((ImagePreprocessor.get_image_info demoDecode demoStream).1 =
          .ok ⟨demoImage.format, demoImage.mode, (demoImage.width, demoImage.height),
            demoImage.width, demoImage.height⟩ ∧
        (∀ t : Stream, t.data = demoStream.data → t.pos = 0 → t.seekable = true →
          (ImagePreprocessor.get_image_info demoDecode t).1 =
            (ImagePreprocessor.get_image_info demoDecode demoStream).1) ∧
        ∀ out, (predictPipeline demoDecode demoPP demoStream).1 = .ok out →
          out.1.width = demoImage.width ∧ out.1.height = demoImage.height ∧
            out.1.format = demoImage.format) :=
  ⟨⟨rfl, rfl, by decide⟩,
    get_image_info_reports_original_metadata demoDecode demoPP demoStream demoImage
      rfl rfl (by decide)⟩

/-- Claim C10: validate_image leaves the read position at the start on
both outcomes (success and invalid-image failure) for the seekable
uploaded file object, so a subsequent read observes the same content
as before validation. -/
theorem validate_image_restores_position (d : Decoder) (s : Stream)
    (hseek : s.seekable = true) :
    ((ImagePreprocessor.validate_image d s).2.pos = 0 ∧
        (ImagePreprocessor.validate_image d s).2.data = s.data ∧
        (ImagePreprocessor.validate_image d s).2.seekable = s.seekable) ∧
      (s.pos = 0 → ((ImagePreprocessor.validate_image d s).2.read).1 = (s.read).1) := by
  obtain ⟨data, pos, seekable, log⟩ := s
  simp only at hseek
  subst hseek
  cases hdd : d (data.drop pos) with
  | none =>
    constructor
    · refine ⟨?_, ?_, ?_⟩ <;>
        simp [ImagePreprocessor.validate_image, Stream.read, Stream.seek0, hdd]
    · intro h
      subst h
      rw [List.drop_zero] at hdd
      simp [ImagePreprocessor.validate_image, Stream.read, Stream.seek0, hdd]
  | some image =>
    constructor
    · refine ⟨?_, ?_, ?_⟩ <;>
        simp [ImagePreprocessor.validate_image, Stream.read, Stream.seek0, hdd]
    · intro h
      subst h
      rw [List.drop_zero] at hdd
      simp [ImagePreprocessor.validate_image, Stream.read, Stream.seek0, hdd]

theorem validate_image_restores_position_witness :
    demoStream.seekable = true ∧
      (((ImagePreprocessor.validate_image demoDecode demoStream).2.pos = 0 ∧
          (ImagePreprocessor.validate_image demoDecode demoStream).2.data =
            demoStream.data ∧
          (ImagePreprocessor.validate_image demoDecode demoStream).2.seekable =
            demoStream.seekable) ∧
        (demoStream.pos = 0 →
          ((ImagePreprocessor.validate_image demoDecode demoStream).2.read).1 =
            (demoStream.read).1)) :=
  ⟨rfl, validate_image_restores_position demoDecode demoStream rfl⟩

end Craft
